import Mathlib

/-!
Verification development for the orbtk rendering/layout core.

The Rust source computes with IEEE-754 `f64` values.  We shallow-embed those
computations over an explicit value type `F` that models the four classes of
`f64` values the verified code can produce: NaN, +infinity, -infinity and
finite values (modelled exactly as rationals; zero is treated as +0, which is
the sign every zero arising in the evaluated claims has).  Division by zero,
NaN propagation and the NaN-ignoring behaviour of Rust's `f64::min`/`f64::max`
are modelled faithfully, because several claims hinge on them.  `f64::sqrt` is
modelled exactly on perfect squares (`ratSqrt`), which covers every input any
theorem below evaluates.  The `as f32` casts the source applies to final
gradient-stop positions are modelled as the identity; the rounding they perform
is monotone and maps `[0,1]` into `[0,1]`, so it does not affect any claim
about ordering or range.
-/

/-- Exact square root on rationals: exact on perfect squares (the only inputs
the theorems below evaluate square roots at). -/
def ratSqrt (q : ℚ) : ℚ :=
  mkRat (Nat.sqrt q.num.toNat) (Nat.sqrt q.den)

/-- Truncating (toward zero) integer part of a rational, as Rust casts and the
`%` remainder use. -/
def ratTrunc (q : ℚ) : ℤ :=
  q.num / (q.den : ℤ)

/-- Rust's `%` remainder on floats: `x - y * trunc(x / y)`.  It is only ever
applied with nonzero modulus in the embedded code paths any theorem evaluates. -/
def rustMod (x y : ℚ) : ℚ :=
  x - y * ((ratTrunc (x / y) : ℤ) : ℚ)

/-- Model of the `f64` values the embedded code manipulates: NaN, the two
infinities, and finite values carried exactly as rationals. -/
inductive F : Type where
  | nan : F
  | inf : F
  | ninf : F
  | fin (q : ℚ) : F
deriving DecidableEq, Repr

namespace F

/-- Addition, IEEE semantics on the modelled classes. -/
def add : F → F → F
  | nan, _ => nan
  | _, nan => nan
  | inf, ninf => nan
  | ninf, inf => nan
  | inf, _ => inf
  | _, inf => inf
  | ninf, _ => ninf
  | _, ninf => ninf
  | fin a, fin b => fin (a + b)

/-- Negation. -/
def neg : F → F
  | nan => nan
  | inf => ninf
  | ninf => inf
  | fin a => fin (-a)

/-- Subtraction. -/
def sub (x y : F) : F := add x (neg y)

/-- Multiplication, IEEE semantics; `0 * inf` is NaN. -/
def mul : F → F → F
  | nan, _ => nan
  | _, nan => nan
  | inf, inf => inf
  | inf, ninf => ninf
  | ninf, inf => ninf
  | ninf, ninf => inf
  | inf, fin b => if b > 0 then inf else if b < 0 then ninf else nan
  | fin a, inf => if a > 0 then inf else if a < 0 then ninf else nan
  | ninf, fin b => if b > 0 then ninf else if b < 0 then inf else nan
  | fin a, ninf => if a > 0 then ninf else if a < 0 then inf else nan
  | fin a, fin b => fin (a * b)

/-- Division, IEEE semantics with zero treated as +0: a nonzero finite value
divided by zero gives the infinity carrying the numerator's sign, `0 / 0` is
NaN. -/
def div : F → F → F
  | nan, _ => nan
  | _, nan => nan
  | inf, inf => nan
  | inf, ninf => nan
  | ninf, inf => nan
  | ninf, ninf => nan
  | inf, fin b => if b < 0 then ninf else inf
  | ninf, fin b => if b < 0 then inf else ninf
  | fin _, inf => fin 0
  | fin _, ninf => fin 0
  | fin a, fin b =>
    if b = 0 then (if a > 0 then inf else if a < 0 then ninf else nan)
    else fin (a / b)

instance : Add F := ⟨F.add⟩
instance : Neg F := ⟨F.neg⟩
instance : Sub F := ⟨F.sub⟩
instance : Mul F := ⟨F.mul⟩
instance : Div F := ⟨F.div⟩

/-- Strict less-than as an IEEE comparison: any comparison with NaN is false. -/
def ltb : F → F → Bool
  | nan, _ => false
  | _, nan => false
  | ninf, ninf => false
  | ninf, _ => true
  | _, ninf => false
  | inf, _ => false
  | fin _, inf => true
  | fin a, fin b => a < b

/-- Non-strict comparison as an IEEE comparison: false on NaN operands. -/
def leb : F → F → Bool
  | nan, _ => false
  | _, nan => false
  | ninf, _ => true
  | _, ninf => false
  | _, inf => true
  | inf, fin _ => false
  | fin a, fin b => a ≤ b

/-- Rust's `f64::min`: returns the other operand when one is NaN. -/
def fmin : F → F → F
  | nan, y => y
  | x, nan => x
  | x, y => if ltb y x then y else x

/-- Rust's `f64::max`: returns the other operand when one is NaN. -/
def fmax : F → F → F
  | nan, y => y
  | x, nan => x
  | x, y => if ltb x y then y else x

/-- Rust's `f64::clamp`: below the interval clamps up, above clamps down, NaN
propagates (every comparison with NaN is false). -/
def clamp (x lo hi : F) : F :=
  if ltb x lo then lo else if ltb hi x then hi else x

/-- Absolute value. -/
def fabs : F → F
  | nan => nan
  | inf => inf
  | ninf => inf
  | fin a => fin |a|

/-- Square root; NaN on negative finite inputs, exact on perfect squares. -/
def fsqrt : F → F
  | nan => nan
  | inf => inf
  | ninf => nan
  | fin a => if a < 0 then nan else fin (ratSqrt a)

/-- Whether the value is strictly positive in the IEEE comparison sense, as the
source's `h.x() > 0.0` tests. -/
def posb (x : F) : Bool := ltb (fin 0) x

end F

/-- Two-dimensional point over the float model.  The source's `Point` type
(orbtk utils) implements componentwise arithmetic; its definition is not under
`src/`, so the componentwise operations are modelled here following the way the
rendering code uses them. -/
structure PtF : Type where
  x : F
  y : F
deriving DecidableEq, Repr

namespace PtF

/-- Componentwise addition. -/
def add (p q : PtF) : PtF := ⟨p.x + q.x, p.y + q.y⟩

/-- Componentwise subtraction. -/
def sub (p q : PtF) : PtF := ⟨p.x - q.x, p.y - q.y⟩

/-- Componentwise negation. -/
def neg (p : PtF) : PtF := ⟨-p.x, -p.y⟩

/-- Componentwise multiplication (the source multiplies `Point`s pointwise,
e.g. `b * b`). -/
def mul (p q : PtF) : PtF := ⟨p.x * q.x, p.y * q.y⟩

/-- Componentwise division. -/
def div (p q : PtF) : PtF := ⟨p.x / q.x, p.y / q.y⟩

instance : Add PtF := ⟨PtF.add⟩
instance : Sub PtF := ⟨PtF.sub⟩
instance : Neg PtF := ⟨PtF.neg⟩
instance : Mul PtF := ⟨PtF.mul⟩
instance : Div PtF := ⟨PtF.div⟩

/-- Scalar multiple, for the source's `3.0 * p1` style products. -/
def scale (c : ℚ) (p : PtF) : PtF := ⟨F.fin c * p.x, F.fin c * p.y⟩

/-- The source's `Point::from(1.0)`: both components set to the scalar. -/
def splat (c : ℚ) : PtF := ⟨F.fin c, F.fin c⟩

/-- Componentwise `f64::min`. -/
def pmin (p q : PtF) : PtF := ⟨F.fmin p.x q.x, F.fmin p.y q.y⟩

/-- Componentwise `f64::max`. -/
def pmax (p q : PtF) : PtF := ⟨F.fmax p.x q.x, F.fmax p.y q.y⟩

/-- Componentwise clamp to `[lo, hi]`. -/
def pclamp (p : PtF) (lo hi : ℚ) : PtF :=
  ⟨F.clamp p.x (F.fin lo) (F.fin hi), F.clamp p.y (F.fin lo) (F.fin hi)⟩

/-- Componentwise absolute value. -/
def pabs (p : PtF) : PtF := ⟨F.fabs p.x, F.fabs p.y⟩

/-- Componentwise square root. -/
def psqrt (p : PtF) : PtF := ⟨F.fsqrt p.x, F.fsqrt p.y⟩

/-- Shorthand for a point with rational coordinates. -/
def ofq (a b : ℚ) : PtF := ⟨F.fin a, F.fin b⟩

end PtF

/-- Rectangle as the render code stores it: position plus size. -/
structure RectF : Type where
  x : F
  y : F
  width : F
  height : F
deriving DecidableEq, Repr

/-!
The body of `cubic_rect` in `src/crates/render/src/common.rs` (lines 52-87) is
embedded below; the same computation is inlined verbatim in the `CubicTo` arm
of `path_rect` in `src/crates/render/src/raqote/mod.rs`.  Each local variable
of the source (`c`, `b`, `a`, `h`, `g`, `t1`, `t2`, `q1`, `q2`) becomes a named
definition so that concrete inputs can be evaluated in small steps. -/

/-- The source's `let c = -1.0 * p0 + 1.0 * p1`. -/
def cubicC (p0 p1 : PtF) : PtF := (PtF.scale (-1) p0) + (PtF.scale 1 p1)

/-- The source's `let b = 1.0 * p0 - 2.0 * p1 + 1.0 * p2`. -/
def cubicB (p0 p1 p2 : PtF) : PtF :=
  (PtF.scale 1 p0) - (PtF.scale 2 p1) + (PtF.scale 1 p2)

/-- The source's `let a = -1.0 * p0 + 3.0 * p1 - 3.0 * p2 + 1.0 * p3`. -/
def cubicA (p0 p1 p2 p3 : PtF) : PtF :=
  (PtF.scale (-1) p0) + (PtF.scale 3 p1) - (PtF.scale 3 p2) + (PtF.scale 1 p3)

/-- The source's discriminant `let h = b * b - a * c` (componentwise). -/
def cubicH (p0 p1 p2 p3 : PtF) : PtF :=
  cubicB p0 p1 p2 * cubicB p0 p1 p2 - cubicA p0 p1 p2 p3 * cubicC p0 p1

/-- The source's derivative-root candidate `t1 = ((-b - g) / a).clamp(0,1)`
where `g = h.abs().sqrt()`. -/
def cubicT1 (p0 p1 p2 p3 : PtF) : PtF :=
  ((-(cubicB p0 p1 p2) - (cubicH p0 p1 p2 p3).pabs.psqrt) / cubicA p0 p1 p2 p3).pclamp 0 1

/-- The source's derivative-root candidate `t2 = ((-b + g) / a).clamp(0,1)`. -/
def cubicT2 (p0 p1 p2 p3 : PtF) : PtF :=
  ((-(cubicB p0 p1 p2) + (cubicH p0 p1 p2 p3).pabs.psqrt) / cubicA p0 p1 p2 p3).pclamp 0 1

/-- Bernstein evaluation of the cubic at the (componentwise) parameter `t`,
matching the source's `q1`/`q2` expressions with `s = Point::from(1.0) - t`. -/
def cubicQ (p0 p1 p2 p3 t : PtF) : PtF :=
  let s := PtF.splat 1 - t
  s * s * s * p0 + PtF.scale 3 (s * s * t * p1) + PtF.scale 3 (s * t * t * p2)
    + t * t * t * p3

/-- Min/max corner tracking for a cubic Bézier segment, assembling the helper
definitions exactly as the source's control flow does: seed with the start/end
corners, and under `h.x() > 0.0 || h.y() > 0.0` fold in the evaluated root
candidates per axis whose discriminant component is positive. -/
def cubicMinMax (p0 p1 p2 p3 : PtF) : PtF × PtF :=
  let mi := p0.pmin p3
  let ma := p0.pmax p3
  let h := cubicH p0 p1 p2 p3
  if h.x.posb || h.y.posb then
    let q1 := cubicQ p0 p1 p2 p3 (cubicT1 p0 p1 p2 p3)
    let q2 := cubicQ p0 p1 p2 p3 (cubicT2 p0 p1 p2 p3)
    let mi := if h.x.posb then { mi with x := F.fmin mi.x (F.fmin q1.x q2.x) } else mi
    let ma := if h.x.posb then { ma with x := F.fmax ma.x (F.fmax q1.x q2.x) } else ma
    let mi := if h.y.posb then { mi with y := F.fmin mi.y (F.fmin q1.y q2.y) } else mi
    let ma := if h.y.posb then { ma with y := F.fmax ma.y (F.fmax q1.y q2.y) } else ma
    (mi, ma)
  else
    (mi, ma)

/-- The `cubic_rect` function of `src/crates/render/src/common.rs`:
`Rectangle::new(mi, Size::new(ma.x-mi.x, ma.y-mi.y))`. -/
def cubic_rect (p0 p1 p2 p3 : PtF) : RectF :=
  let (mi, ma) := cubicMinMax p0 p1 p2 p3
  ⟨mi.x, mi.y, ma.x - mi.x, ma.y - mi.y⟩

/-- Membership of a value in the vertical extent `[y, y + height]` of a
rectangle, with IEEE comparisons. -/
def RectF.containsY (r : RectF) (v : F) : Prop :=
  F.leb r.y v = true ∧ F.leb v (r.y + r.height) = true

/-- Quadratic-segment min/max tracking as inlined in the `QuadTo` arm of
`path_rect` in `src/crates/render/src/raqote/mod.rs` (lines 92-126), including
that file's fast-path condition
`p1.x() < mi.x() && p1.x() > ma.x() || p1.y() < mi.y() || p1.y() > ma.y()`. -/
def quadMinMaxPath (p0 p1 p2 : PtF) : PtF × PtF :=
  let mi := p0.pmin p2
  let ma := p0.pmax p2
  if (F.ltb p1.x mi.x && F.ltb ma.x p1.x) || F.ltb p1.y mi.y || F.ltb ma.y p1.y then
    let t := ((p0 - p1) / (p0 - PtF.scale 2 p1 + p2)).pclamp 0 1
    let s := PtF.splat 1 - t
    let q := s * s * p0 + PtF.scale 2 (s * t * p1) + t * t * p2
    (mi.pmin q, ma.pmax q)
  else
    (mi, ma)

/-- Path commands as `raqote::PathOp` stores them (`Close` carries no point). -/
inductive PathOp : Type where
  | MoveTo (p : PtF)
  | LineTo (p : PtF)
  | QuadTo (p1 p2 : PtF)
  | CubicTo (p1 p2 p3 : PtF)
  | Close
deriving DecidableEq, Repr

/-- End point carried by a command, used by `path_rect`'s look-back for the
previous on-curve point. -/
def opEnd : PathOp → Option PtF
  | .MoveTo p => some p
  | .LineTo p => some p
  | .QuadTo _ p => some p
  | .CubicTo _ _ p => some p
  | .Close => none

/-- The `p0` look-back of `path_rect`: origin for the first command, otherwise
the previous command's end point, falling through a `Close` to the first
command's end point and finally to the origin. -/
def prevPoint (ops : List PathOp) (i : Nat) : PtF :=
  if i = 0 then ⟨F.fin 0, F.fin 0⟩
  else
    match ops.get? (i - 1) with
    | some op =>
      match opEnd op with
      | some p => p
      | none =>
        match ops.get? 0 with
        | some op0 => (opEnd op0).getD ⟨F.fin 0, F.fin 0⟩
        | none => ⟨F.fin 0, F.fin 0⟩
    | none => ⟨F.fin 0, F.fin 0⟩

/-- Per-command extent `(x1, y1, x2, y2)` computed by the body of the `match`
in `path_rect`; `none` models the `continue` taken for a `Close` that is not
the first command. -/
def opSpan (ops : List PathOp) (i : Nat) : PathOp → Option (F × F × F × F)
  | .MoveTo p => some (p.x, p.y, p.x, p.y)
  | .LineTo p => some (p.x, p.y, p.x, p.y)
  | .Close => if i = 0 then some (F.fin 0, F.fin 0, F.fin 0, F.fin 0) else none
  | .QuadTo p1 p2 =>
    let mm := quadMinMaxPath (prevPoint ops i) p1 p2
    some (mm.1.x, mm.1.y, mm.2.x, mm.2.y)
  | .CubicTo p1 p2 p3 =>
    let mm := cubicMinMax (prevPoint ops i) p1 p2 p3
    some (mm.1.x, mm.1.y, mm.2.x, mm.2.y)

/-- Folding one command extent into the running rectangle: the `first` branch
seeds the rectangle, the other branch widens it edge by edge exactly as the
source's four sequential `if`s do (the third and fourth tests read the
possibly-updated position). -/
def mergeSpan (acc : RectF × Bool) (sp : F × F × F × F) : RectF × Bool :=
  let rect := acc.1
  let x1 := sp.1
  let y1 := sp.2.1
  let x2 := sp.2.2.1
  let y2 := sp.2.2.2
  if acc.2 then
    (⟨x1, y1, x2 - x1, y2 - y1⟩, false)
  else
    let rect := if F.ltb x1 rect.x then
      { rect with width := rect.width + rect.x - x1, x := x1 } else rect
    let rect := if F.ltb y1 rect.y then
      { rect with height := rect.height + rect.y - y1, y := y1 } else rect
    let rect := if F.ltb (rect.x + rect.width) x2 then
      { rect with width := x2 - rect.x } else rect
    let rect := if F.ltb (rect.y + rect.height) y2 then
      { rect with height := y2 - rect.y } else rect
    (rect, false)

/-- The `path_rect` method of `RenderContext2D` in
`src/crates/render/src/raqote/mod.rs` (lines 68-211): iterates the recorded
commands, starting from the zero rectangle with a `first` flag, and returns the
accumulated rectangle unconditionally (there is no `Option` in its signature). -/
def path_rect (ops : List PathOp) : RectF :=
  ((List.range ops.length).foldl
    (fun acc i =>
      match ops.get? i with
      | none => acc
      | some op =>
        match opSpan ops i op with
        | none => acc
        | some sp => mergeSpan acc sp)
    (⟨F.fin 0, F.fin 0, F.fin 0, F.fin 0⟩, true)).1

/-- Companion of `path_rect` with the `Option` signature the specification
describes for the bounds tracker; the source function always produces a
rectangle, so its honest `Option`-valued reading is `some` of it on every
input, including the empty command list. -/
def path_rect_opt (ops : List PathOp) : Option RectF :=
  some (path_rect ops)

/-- Color with the four channels the code reads (`r() g() b() a()`); the
`Color` type itself lives in the utils crate outside the provided sources, so
only this channel structure is modelled. -/
structure Color : Type where
  r : ℕ
  g : ℕ
  b : ℕ
  a : ℕ
deriving DecidableEq, Repr

/-- Device color in the argument order of `raqote::Color::new(a, r, g, b)`. -/
structure DColor : Type where
  a : ℕ
  r : ℕ
  g : ℕ
  b : ℕ
deriving DecidableEq, Repr

/-- The conversion `raqote::Color::new(c.a(), c.r(), c.g(), c.b())`. -/
def dcolorOf (c : Color) : DColor := ⟨c.a, c.r, c.g, c.b⟩

/-- Gradient stop position kinds handled by `build_gradient` in
`src/crates/render/src/raqote/mod.rs`: `Interpolated` (auto) or `Fixed`
(fraction).  The merged utils declaration additionally lists a `Pixels`
variant, which that resolver has no arm for. -/
inductive GradientStopKind : Type where
  | Interpolated
  | Fixed (pos : ℚ)
deriving DecidableEq, Repr

/-- A gradient stop as in `src/crates/utils/src/gradients.rs`. -/
structure GradientStop : Type where
  kind : GradientStopKind
  color : Color
deriving DecidableEq, Repr

/-- A resolved device stop (`raqote::GradientStop`): position carried in the
float model (the source's `as f32` narrowing is modelled as the identity). -/
structure GStop : Type where
  position : F
  color : DColor
deriving DecidableEq, Repr

/-- Scan for the next `Fixed` stop, as the `second_cursor` loop of
`build_gradient` does over the suffix starting at the cursor; yields the offset
and the fixed position when found. -/
def findFixedFrom : List GradientStop → Option (ℕ × ℚ)
  | [] => none
  | s :: t =>
    match s.kind with
    | .Fixed e => some (0, e)
    | .Interpolated => (findFixedFrom t).map (fun p => (p.1 + 1, p.2))

/-- Main loop of `build_gradient` (`src/crates/render/src/raqote/mod.rs` lines
728-787), fuel-indexed; `none` models the `unreachable!()` panic (an
`Interpolated` stop directly before the cursor) and can never be produced with
adequate fuel otherwise.  A `Fixed` stop is emitted verbatim (that file applies
no clamping and no monotonicity floor); an `Interpolated` run is distributed
between the previous fixed position (`0.0` at the start) and the next fixed
position (`1.0` and one fewer interval when none follows) using the absolute
index `i`, with the division performed in float semantics. -/
def bgGo (stops : List GradientStop) : ℕ → ℕ → Option (List GStop)
  | 0, _ => none
  | fuel+1, cursor =>
    if hc : cursor < stops.length then
      match (stops.get ⟨cursor, hc⟩).kind with
      | .Fixed pos =>
        match bgGo stops fuel (cursor + 1) with
        | none => none
        | some rest => some (⟨F.fin pos, dcolorOf (stops.get ⟨cursor, hc⟩).color⟩ :: rest)
      | .Interpolated =>
        let scan := findFixedFrom (stops.drop cursor)
        let secondCursor := match scan with
          | some kv => cursor + kv.1
          | none => stops.length
        let fromPos? : Option ℚ :=
          if cursor = 0 then some 0
          else
            match stops.get? (cursor - 1) with
            | some s =>
              match s.kind with
              | .Fixed e => some e
              | .Interpolated => none
            | none => none
        match fromPos? with
        | none => none
        | some fromPos =>
          let count0 : ℚ := ((secondCursor - cursor : ℕ) : ℚ)
          let ct : ℚ × ℚ := match scan with
            | some kv => (count0, kv.2)
            | none => (count0 - 1, 1)
          let seg := (List.range (secondCursor - cursor)).map (fun k =>
            let i := cursor + k
            let p := F.fin fromPos
              + (F.fin ct.2 - F.fin fromPos) / F.fin ct.1 * F.fin ((i : ℕ) : ℚ)
            ({ position := p,
               color := dcolorOf (((stops.get? i).getD ⟨.Interpolated, ⟨0, 0, 0, 0⟩⟩).color) } : GStop))
          match scan with
          | none => some seg
          | some _ =>
            match bgGo stops fuel secondCursor with
            | none => none
            | some rest => some (seg ++ rest)
    else
      some []

/-- The `build_gradient` function of `src/crates/render/src/raqote/mod.rs`
(lines 728-787), with fuel covering the whole stop list (the cursor strictly
advances each iteration). -/
def build_gradient (stops : List GradientStop) : Option (List GStop) :=
  bgGo stops (stops.length + 1) 0

/-- The claimed invariant "resolved positions are non-decreasing", as an IEEE
chain over the emitted stop list. -/
def stopsMonotone (l : List GStop) : Prop :=
  List.Chain' (fun u v => F.leb u.position v.position = true) l

/-- The claimed invariant "resolved positions lie in [0, 1]". -/
def stopsInUnit (l : List GStop) : Prop :=
  ∀ s ∈ l, F.leb (F.fin 0) s.position = true ∧ F.leb s.position (F.fin 1) = true

/-- Point with exact rational coordinates, for the gradient-geometry layer
(whose evaluated code paths stay finite). -/
structure PtQ : Type where
  x : ℚ
  y : ℚ
deriving DecidableEq, Repr

namespace PtQ

/-- Componentwise addition (also used for the source's `Point + Size`). -/
def add (p q : PtQ) : PtQ := ⟨p.x + q.x, p.y + q.y⟩

/-- Componentwise negation, the source's `-z`. -/
def neg (p : PtQ) : PtQ := ⟨-p.x, -p.y⟩

instance : Add PtQ := ⟨PtQ.add⟩
instance : Neg PtQ := ⟨PtQ.neg⟩

end PtQ

/-- Rectangle with exact rational position and size (the `frame` of the brush
conversion). -/
structure RectQ : Type where
  x : ℚ
  y : ℚ
  width : ℚ
  height : ℚ
deriving DecidableEq, Repr

/-- The source's `frame.position()`. -/
def RectQ.position (f : RectQ) : PtQ := ⟨f.x, f.y⟩

/-- The source's `frame.size() / 2.0`, added to points componentwise. -/
def RectQ.halfSize (f : RectQ) : PtQ := ⟨f.width / 2, f.height / 2⟩

/-- Closed pointwise membership in a rectangle's extent. -/
def RectQ.holds (rect : RectQ) (px py : ℚ) : Prop :=
  rect.x ≤ px ∧ px ≤ rect.x + rect.width ∧ rect.y ≤ py ∧ py ≤ rect.y + rect.height

/-- Oracle for the transcendental `f64` primitives the geometry code calls.
Angles are carried in units of π radians (so `1/2` is 90°), which represents
every angle the theorems evaluate exactly; `sin`/`cos` take such an angle,
`atan` takes a ratio and answers in the same unit. -/
structure Trig : Type where
  sin : ℚ → ℚ
  cos : ℚ → ℚ
  atan : ℚ → ℚ

/-- Reduction of an angle in π-units into `[0, 2)`, i.e. of the radian angle
into `[0, 2π)`, by flooring — the normalization named by the arc claim. -/
def normTwoPi (q : ℚ) : ℚ := q - 2 * ⌊q / 2⌋

/-- Concrete oracle: exact values of sine/cosine at quarter-turn multiples
(after 2π-periodic reduction) and of arctangent at ratios 0 and 1 — the only
points at which the theorems below evaluate the oracle; other inputs are
mapped to 0 and are never relied upon. -/
def quarterTrig : Trig where
  sin q :=
    let r := normTwoPi q
    if r = 0 then 0 else if r = 1/2 then 1 else if r = 1 then 0
    else if r = 3/2 then -1 else 0
  cos q :=
    let r := normTwoPi q
    if r = 0 then 1 else if r = 1/2 then 0 else if r = 1 then -1
    else if r = 3/2 then 0 else 0
  atan r := if r = 1 then 1/4 else 0

/-- The eight compass directions of the utils `Direction` enum. -/
inductive Direction : Type where
  | ToTop
  | ToTopRight
  | ToRight
  | ToBottomRight
  | ToBottom
  | ToBottomLeft
  | ToLeft
  | ToTopLeft
deriving DecidableEq, Repr

/-- The `start_and_end_from_direction` function of
`src/crates/render/src/raqote/mod.rs` (lines 687-726). -/
def start_and_end_from_direction (d : Direction) (width height : ℚ) : PtQ × PtQ :=
  let midWidth := width / 2
  let midHeight := height / 2
  match d with
  | .ToTop => (⟨midWidth, height⟩, ⟨midWidth, 0⟩)
  | .ToTopRight => (⟨0, height⟩, ⟨width, 0⟩)
  | .ToRight => (⟨0, midHeight⟩, ⟨width, midHeight⟩)
  | .ToBottomRight => (⟨0, 0⟩, ⟨width, height⟩)
  | .ToBottom => (⟨midWidth, 0⟩, ⟨midWidth, height⟩)
  | .ToBottomLeft => (⟨width, 0⟩, ⟨0, height⟩)
  | .ToLeft => (⟨width, midHeight⟩, ⟨0, midHeight⟩)
  | .ToTopLeft => (⟨width, height⟩, ⟨0, 0⟩)

/-- Linear gradient coordinate forms of the merged
`src/crates/utils/src/gradients.rs` (`GradientCoords`); the angle is carried in
π-units as explained at `Trig`. -/
inductive GradientCoords : Type where
  | Ends (gstart gend : PtQ)
  | Angle (radians : ℚ)
  | Direction (d : Direction)
deriving DecidableEq, Repr

/-- The merged `GradientKind` declares only `Linear`. -/
inductive GradientKindR : Type where
  | Linear
deriving DecidableEq, Repr

/-- Gradient payload as the `Brush::Gradient` arm of `brush_to_source` in
`src/crates/render/src/raqote/mod.rs` destructures it: coordinates and stops. -/
structure GradientR : Type where
  coords : GradientCoords
  stops : List GradientStop
deriving DecidableEq, Repr

/-- The brush shape matched by `brush_to_source` in
`src/crates/render/src/raqote/mod.rs` (line 616): a solid color or a kind plus
gradient payload. -/
inductive BrushR : Type where
  | SolidColor (c : Color)
  | Gradient (kind : GradientKindR) (g : GradientR)
deriving DecidableEq, Repr

/-- The two raqote spread modes the conversion selects. -/
inductive Spread : Type where
  | Pad
  | Repeat
deriving DecidableEq, Repr

/-- A produced `raqote::Source`: solid, or a linear gradient with stops, start
and end points and a spread. -/
inductive Source : Type where
  | Solid (c : DColor)
  | LinearGradient (stops : List GStop) (gstart gend : PtQ) (spread : Spread)
deriving DecidableEq, Repr

/-- Start point of a produced source, when it is a gradient. -/
def Source.startPt : Source → Option PtQ
  | .Solid _ => none
  | .LinearGradient _ s _ _ => some s

/-- End point of a produced source, when it is a gradient. -/
def Source.endPt : Source → Option PtQ
  | .Solid _ => none
  | .LinearGradient _ _ e _ => some e

/-- The angle normalization prologue of the `GradientCoords::Angle` arm
(`rad += PI/2; rad = PI*2 - rad; rad = (rad % (PI*2)).abs()`), in π-units. -/
def angleRad (radians : ℚ) : ℚ :=
  let rad := radians + 1/2
  let rad := 2 - rad
  |rustMod rad 2|

/-- The half-vector `z` of the `GradientCoords::Angle` arm, with the source's
quadrant test against `c = (b/a).atan()` and the two sign-flip conditions
written exactly as in `src/crates/render/src/raqote/mod.rs` lines 647-659. -/
def angleZ (T : Trig) (rad a b c : ℚ) : PtQ :=
  if (rad ≥ 2 - c ∨ rad ≤ c) ∨ (rad ≥ 1 - c ∧ rad ≤ 1 + c) then
    let z : PtQ := ⟨a / 2, (a * T.sin rad) / (2 * T.cos rad)⟩
    if rad ≥ 2 - c ∨ rad ≤ c then -z else z
  else
    let z : PtQ := ⟨(b * T.cos rad) / (2 * T.sin rad), b / 2⟩
    if rad ≥ 1 + c ∨ rad ≤ 2 - c then -z else z

/-- The `brush_to_source` function of `src/crates/render/src/raqote/mod.rs`
(lines 608-685): solid colors pass through; a linear gradient first resolves
its stops with `build_gradient` and then computes device start/end points from
the frame per coordinate form (`Ends` offsets by the frame position with
`Spread::Repeat`; `Angle` uses the normalized angle and half-vector around the
frame center with `Spread::Pad`; `Direction` spans the frame with
`Spread::Pad`).  There is no special case for single-stop gradients. -/
def brush_to_source (T : Trig) (brush : BrushR) (frame : RectQ) : Option Source :=
  match brush with
  | .SolidColor c => some (.Solid (dcolorOf c))
  | .Gradient .Linear g =>
    match build_gradient g.stops with
    | none => none
    | some gStops =>
      match g.coords with
      | .Ends s e =>
        some (.LinearGradient gStops (frame.position + s) (frame.position + e) .Repeat)
      | .Angle radians =>
        let rad := angleRad radians
        let a := frame.width
        let b := frame.height
        let c := T.atan (b / a)
        let z := angleZ T rad a b c
        some (.LinearGradient gStops
          (frame.position + (frame.halfSize + (-z)))
          (frame.position + (frame.halfSize + z)) .Pad)
      | .Direction d =>
        let se := start_and_end_from_direction d frame.width frame.height
        some (.LinearGradient gStops (se.1 + frame.position) (se.2 + frame.position) .Pad)

/-- Unit vector folded in for cardinal index `i` by the `match i` of
`arc_rect` in `src/crates/render/src/common.rs`: 0°, 90°, 180°, 270°. -/
def cardinalPt : ℕ → ℚ × ℚ
  | 0 => (1, 0)
  | 1 => (0, 1)
  | 2 => (-1, 0)
  | _ => (0, -1)

/-- The membership test of `arc_rect`'s cardinal loop: the cardinal angle
`i·½π` (π-units) lies within `[min(start, end), max(start, end)]` of the raw
input angles — no normalization is applied by the source. -/
def arcQualB (startAngle endAngle : ℚ) (i : ℕ) : Bool :=
  decide (min startAngle endAngle ≤ (i : ℚ) / 2) &&
    decide ((i : ℚ) / 2 ≤ max startAngle endAngle)

/-- One iteration of `arc_rect`'s cardinal loop, widening the unit-circle
bounds `(sx, sy, ex, ey)` when the cardinal qualifies. -/
def arcStep (startAngle endAngle : ℚ) (acc : ℚ × ℚ × ℚ × ℚ) (i : ℕ) :
    ℚ × ℚ × ℚ × ℚ :=
  if arcQualB startAngle endAngle i then
    let c := cardinalPt i
    (min acc.1 c.1, min acc.2.1 c.2, max acc.2.2.1 c.1, max acc.2.2.2 c.2)
  else
    acc

/-- The `arc_rect` function of `src/crates/render/src/common.rs` (lines 3-36):
seeds the unit-circle bounds with the two endpoint vectors `sin_cos(start)`,
`sin_cos(end)`, folds in the four cardinals in order through the `while` loop,
then offsets by the center and scales by the radius.  Angles are in π-units
and the endpoints' sine/cosine come from the oracle. -/
def arc_rect (T : Trig) (x y radius startAngle endAngle : ℚ) : RectQ :=
  let aY := T.sin startAngle
  let aX := T.cos startAngle
  let bY := T.sin endAngle
  let bX := T.cos endAngle
  let acc0 : ℚ × ℚ × ℚ × ℚ := (min aX bX, min aY bY, max aX bX, max aY bY)
  let acc := [0, 1, 2, 3].foldl (arcStep startAngle endAngle) acc0
  let startX := x + acc.1 * radius
  let startY := y + acc.2.1 * radius
  let endX := x + acc.2.2.1 * radius
  let endY := y + acc.2.2.2 * radius
  ⟨startX, startY, endX - startX, endY - startY⟩

/-- Points whose min/max characterize the arc bounds: the two endpoint unit
vectors followed by exactly the qualifying cardinals, in loop order. -/
def arcPts (T : Trig) (startAngle endAngle : ℚ) : List (ℚ × ℚ) :=
  (T.cos startAngle, T.sin startAngle) :: (T.cos endAngle, T.sin endAngle) ::
    (([0, 1, 2, 3].filter (arcQualB startAngle endAngle)).map cardinalPt)

/-- Minimum of a nonempty rational list (first element seeds the fold). -/
def lminQ : List ℚ → ℚ
  | [] => 0
  | h :: t => t.foldl min h

/-- Maximum of a nonempty rational list. -/
def lmaxQ : List ℚ → ℚ
  | [] => 0
  | h :: t => t.foldl max h

/-- Radial gradient sizing policies of the utils `RadialGradientSize` enum
(HEAD side of `src/crates/utils/src/gradients.rs`).  `Custom` and `Radius`
carry `OnPlanePos`/`OnLinePos` payloads whose definitions are not under
`src/`; the payloads are omitted here because the conversion panics on those
variants without reading them. -/
inductive RadialGradientSize : Type where
  | ToClosestSide (circle : Bool)
  | ToClosestCorner (circle : Bool)
  | ToFarthestSide (circle : Bool)
  | ToFarthestCorner (circle : Bool)
  | Custom
  | Radius
deriving DecidableEq, Repr

/-- The radius/scale computation of the radial-gradient arm of
`brush_to_source` in `src/crates/render/src/raqote/mod_BACKUP_7477.rs` (lines
789-808): for `ToClosestSide`, the radius is half the smaller frame dimension
and the larger axis is scaled by smaller/larger unless a circle is forced;
every other sizing policy hits `unimplemented!()`, modelled as `none`.
Returns `(radius, scale_x, scale_y)`. -/
def radialScale (frame : RectQ) (size : RadialGradientSize) :
    Option (ℚ × ℚ × ℚ) :=
  match size with
  | .ToClosestSide circ =>
    let v : ℚ × ℚ × ℚ :=
      if frame.width > frame.height then
        (frame.height / frame.width, 1, frame.height / 2)
      else
        (1, frame.width / frame.height, frame.width / 2)
    let sx := if circ then (1 : ℚ) else v.1
    let sy := if circ then (1 : ℚ) else v.2.1
    some (v.2.2, sx, sy)
  | _ => none

/-- Per-frame component state read and written by the layout system: the
root's dirty-widget list and, per entity, the `bounds` rectangle and the
cached desired size (present only once measured). -/
structure EcmState : Type where
  dirtyWidgets : List ℕ
  bounds : ℕ → Option RectQ
  desiredSize : ℕ → Option (ℚ × ℚ)

/-- The `run_with_context` method of `LayoutSystem` in
`src/crates/api/src/systems/layout_system.rs` (lines 12-64): if the root's
dirty-widget list is empty and the first-run flag is unset it returns at once;
otherwise it runs the measure and arrange passes, abstracted here as the
`layoutPass` function (they dispatch through the polymorphic layout-object
table, which is outside this subsystem). -/
def run_with_context (firstRun : Bool) (layoutPass : EcmState → EcmState)
    (s : EcmState) : EcmState :=
  if s.dirtyWidgets.isEmpty ∧ firstRun = false then s else layoutPass s

/-- Font configuration of the paint state.  Modelled from the spec: the
`RenderConfig`/`FontConfig` structs live in the render crate root, which is
not under `src/`; §4.5 of the spec enumerates the saved paint configuration as
fill/stroke brush, line width, alpha and font. -/
structure FontConfig : Type where
  family : String
  fontSize : ℚ
deriving DecidableEq, Repr

/-- Paint configuration (`RenderConfig`).  Modelled from the spec, see
`FontConfig`. -/
structure RenderConfig : Type where
  fillStyle : BrushR
  strokeStyle : BrushR
  lineWidth : ℚ
  alpha : ℚ
  fontConfig : FontConfig
deriving DecidableEq, Repr

/-- The state of `RenderContext2D` in `src/crates/render/src/raqote/mod.rs`
that `save`/`restore`/`clip` touch: the current paint configuration, the
single saved-configuration slot, the text-clip fast-path flag and rectangle,
and the depth of the raqote clip stack (`push_clip`/`pop_clip` on the draw
target, an external library modelled as a saturating counter). -/
structure Ctx2D : Type where
  config : RenderConfig
  savedConfig : Option RenderConfig
  clip : Bool
  clipRect : Option RectQ
  lastRect : RectQ
  clipDepth : ℕ

/-- The `save` method (lines 553-555): stores the current configuration in the
single slot, overwriting whatever was there. -/
def Ctx2D.save (s : Ctx2D) : Ctx2D :=
  { s with savedConfig := some s.config }

/-- The `restore` method (lines 559-568): unconditionally clears the clip flag
and rectangle and pops one clip level, then restores the configuration from
the slot when present, and empties the slot. -/
def Ctx2D.restore (s : Ctx2D) : Ctx2D :=
  let s1 := { s with clip := false, clipRect := none, clipDepth := s.clipDepth - 1 }
  let s2 := match s1.savedConfig with
    | some c => { s1 with config := c }
    | none => s1
  { s2 with savedConfig := none }

/-- The `clip` method (lines 487-491): records the last rectangle as the text
fast-path clip, sets the flag, and pushes one clip level. -/
def Ctx2D.clipOp (s : Ctx2D) : Ctx2D :=
  { s with clipRect := some s.lastRect, clip := true, clipDepth := s.clipDepth + 1 }

/-!
## Theorems

First the shared evaluation helpers (instance unfolding and the one square
root the concrete computations need), then one theorem per claim.
-/

theorem fAddDef (x y : F) : x + y = F.add x y := rfl

theorem fSubDef (x y : F) : x - y = F.sub x y := rfl

theorem fNegDef (x : F) : -x = F.neg x := rfl

theorem fMulDef (x y : F) : x * y = F.mul x y := rfl

theorem fDivDef (x y : F) : x / y = F.div x y := rfl

theorem PtfAddDef (p q : PtF) : p + q = PtF.add p q := rfl

theorem PtfSubDef (p q : PtF) : p - q = PtF.sub p q := rfl

theorem PtfNegDef (p : PtF) : -p = PtF.neg p := rfl

theorem PtfMulDef (p q : PtF) : p * q = PtF.mul p q := rfl

theorem PtfDivDef (p q : PtF) : p / q = PtF.div p q := rfl

theorem ptqAddDef (p q : PtQ) : p + q = PtQ.add p q := rfl

theorem ptqNegDef (p : PtQ) : -p = PtQ.neg p := rfl

/-- Square root of 10000, the only square root the concrete evaluations hit. -/
theorem ratSqrtTT : ratSqrt 10000 = 100 := by
  unfold ratSqrt
  norm_num
  have h1 : Int.toNat 10000 = (10000 : ℕ) := rfl
  rw [h1]
  have h2 : (10000 : ℕ) = 100 ^ 2 := by norm_num
  rw [h2, Nat.sqrt_eq']
  norm_num

/-- C2 (code_bug evidence): for the cubic Bézier with control points
`(0,0), (0,100), (100,100), (100,0)` the source's `cubic_rect` produces the
rectangle `(0, 0, 100, 0)` — a vertical extent of `[0, 0]` that does NOT
include the curve's true vertical extremum `y = 75` at `t = ½`.  The cubic's
y derivative-coefficient `a.y` is `0`, so the root formula divides by zero
(`t1.y = 0/0 = NaN`, `t2.y = 200/0 = +∞` clamped to `1`), and the NaN-ignoring
min/max drop the candidates; the discriminant guard `h.y > 0` (here
`h.y = 10000`) does not catch this degeneracy, contradicting the spec's
explicit test vector and its NaN-guard requirement. -/
theorem cubic_rect_c2_missing_extremum :
    cubic_rect (PtF.ofq 0 0) (PtF.ofq 0 100) (PtF.ofq 100 100) (PtF.ofq 100 0)
        = ⟨F.fin 0, F.fin 0, F.fin 100, F.fin 0⟩ ∧
      ¬ (cubic_rect (PtF.ofq 0 0) (PtF.ofq 0 100) (PtF.ofq 100 100)
          (PtF.ofq 100 0)).containsY (F.fin 75) := by
  have hh : cubicH (PtF.ofq 0 0) (PtF.ofq 0 100) (PtF.ofq 100 100) (PtF.ofq 100 0)
      = PtF.ofq 10000 10000 := by
    norm_num [cubicH, cubicB, cubicA, cubicC, PtF.ofq, PtF.scale,
      PtfAddDef, PtfSubDef, PtfMulDef, PtF.add, PtF.sub, PtF.mul,
      fAddDef, fSubDef, fMulDef, F.add, F.sub, F.mul, fNegDef, F.neg]
  have hb : cubicB (PtF.ofq 0 0) (PtF.ofq 0 100) (PtF.ofq 100 100) = PtF.ofq 100 (-100) := by
    norm_num [cubicB, PtF.ofq, PtF.scale,
      PtfAddDef, PtfSubDef, PtfMulDef, PtF.add, PtF.sub, PtF.mul,
      fAddDef, fSubDef, fMulDef, F.add, F.sub, F.mul, fNegDef, F.neg]
  have ha : cubicA (PtF.ofq 0 0) (PtF.ofq 0 100) (PtF.ofq 100 100) (PtF.ofq 100 0)
      = PtF.ofq (-200) 0 := by
    norm_num [cubicA, PtF.ofq, PtF.scale,
      PtfAddDef, PtfSubDef, PtfMulDef, PtF.add, PtF.sub, PtF.mul,
      fAddDef, fSubDef, fMulDef, F.add, F.sub, F.mul, fNegDef, F.neg]
  have hg : (PtF.ofq 10000 10000).pabs.psqrt = PtF.ofq 100 100 := by
    have habs : |(10000 : ℚ)| = 10000 := by norm_num
    norm_num [PtF.ofq, PtF.pabs, PtF.psqrt, F.fabs, F.fsqrt, habs, ratSqrtTT]
  have hnum1 : -(PtF.ofq 100 (-100)) - PtF.ofq 100 100 = PtF.ofq (-200) 0 := by
    norm_num [PtF.ofq, PtfNegDef, PtfSubDef, PtF.neg, PtF.sub,
      fNegDef, fSubDef, fAddDef, F.neg, F.sub, F.add]
  have hnum2 : -(PtF.ofq 100 (-100)) + PtF.ofq 100 100 = PtF.ofq 0 200 := by
    norm_num [PtF.ofq, PtfNegDef, PtfAddDef, PtF.neg, PtF.add,
      fNegDef, fAddDef, F.neg, F.add]
  have ht1 : cubicT1 (PtF.ofq 0 0) (PtF.ofq 0 100) (PtF.ofq 100 100) (PtF.ofq 100 0)
      = ⟨F.fin 1, F.nan⟩ := by
    unfold cubicT1
    rw [hh, hb, ha, hg, hnum1]
    have hdiv : PtF.ofq (-200) 0 / PtF.ofq (-200) 0 = ⟨F.fin 1, F.nan⟩ := by
      norm_num [PtF.ofq, PtfDivDef, PtF.div, fDivDef, F.div]
    rw [hdiv]
    norm_num [PtF.pclamp, F.clamp, F.ltb]
  have ht2 : cubicT2 (PtF.ofq 0 0) (PtF.ofq 0 100) (PtF.ofq 100 100) (PtF.ofq 100 0)
      = ⟨F.fin 0, F.fin 1⟩ := by
    unfold cubicT2
    rw [hh, hb, ha, hg, hnum2]
    have hdiv : PtF.ofq 0 200 / PtF.ofq (-200) 0 = ⟨F.fin 0, F.inf⟩ := by
      norm_num [PtF.ofq, PtfDivDef, PtF.div, fDivDef, F.div]
    rw [hdiv]
    norm_num [PtF.pclamp, F.clamp, F.ltb]
  have hq1 : cubicQ (PtF.ofq 0 0) (PtF.ofq 0 100) (PtF.ofq 100 100) (PtF.ofq 100 0)
      ⟨F.fin 1, F.nan⟩ = ⟨F.fin 100, F.nan⟩ := by
    norm_num [cubicQ, PtF.ofq, PtF.splat, PtF.scale,
      PtfAddDef, PtfSubDef, PtfMulDef, PtF.add, PtF.sub, PtF.mul,
      fAddDef, fSubDef, fMulDef, F.add, F.sub, F.mul, fNegDef, F.neg]
  have hq2 : cubicQ (PtF.ofq 0 0) (PtF.ofq 0 100) (PtF.ofq 100 100) (PtF.ofq 100 0)
      ⟨F.fin 0, F.fin 1⟩ = ⟨F.fin 0, F.fin 0⟩ := by
    norm_num [cubicQ, PtF.ofq, PtF.splat, PtF.scale,
      PtfAddDef, PtfSubDef, PtfMulDef, PtF.add, PtF.sub, PtF.mul,
      fAddDef, fSubDef, fMulDef, F.add, F.sub, F.mul, fNegDef, F.neg]
  have hrect : cubic_rect (PtF.ofq 0 0) (PtF.ofq 0 100) (PtF.ofq 100 100) (PtF.ofq 100 0)
      = ⟨F.fin 0, F.fin 0, F.fin 100, F.fin 0⟩ := by
    unfold cubic_rect cubicMinMax
    rw [hh, ht1, ht2, hq1, hq2]
    norm_num [PtF.ofq, PtF.pmin, PtF.pmax, F.posb, F.ltb, F.fmin, F.fmax,
      fSubDef, F.sub, fAddDef, F.add, F.neg, fNegDef]
  refine ⟨hrect, ?_⟩
  rw [hrect]
  simp only [RectF.containsY, fAddDef, F.add, F.leb]
  norm_num

/-- C9: for the wide frame `(0, 0, 200, 100)` and `ToClosestSide` sizing with
`forceCircle = false`, the radial conversion computes radius `50` and scale
factors `(scale_x, scale_y) = (1/2, 1)`. -/
theorem radialScale_c9_wide_frame :
    radialScale ⟨0, 0, 200, 100⟩ (.ToClosestSide false) = some (50, 1/2, 1) := by
  norm_num [radialScale]

/-- C10: the render context holds at most one saved paint state: `save`
overwrites the single slot with the current configuration (also after an
earlier `save`), `restore` empties the slot, and a second `restore` after one
`save` leaves the paint configuration unchanged. -/
theorem save_restore_c10_single_slot (s : Ctx2D) :
    (s.save).savedConfig = some s.config ∧
      ((s.save).save).savedConfig = some s.config ∧
      (s.save.restore).savedConfig = none ∧
      (s.save.restore.restore).config = (s.save.restore).config := by
  simp [Ctx2D.save, Ctx2D.restore]

/-- C7 (counterexample): `restore()` with no prior `save()` is NOT a complete
no-op: at a state with an active clip and an empty saved slot it leaves the
paint configuration alone but clears the clip flag (and clip rectangle, and
pops a clip level), so the context state changes. -/
theorem restore_c7_counterexample :
    (Ctx2D.restore ⟨⟨.SolidColor ⟨0, 0, 0, 255⟩, .SolidColor ⟨0, 0, 0, 255⟩, 1, 1,
        ⟨"", 12⟩⟩, none, true, some ⟨0, 0, 1, 1⟩, ⟨0, 0, 1, 1⟩, 1⟩).config
      = (⟨.SolidColor ⟨0, 0, 0, 255⟩, .SolidColor ⟨0, 0, 0, 255⟩, 1, 1,
        ⟨"", 12⟩⟩ : RenderConfig) ∧
    (Ctx2D.restore ⟨⟨.SolidColor ⟨0, 0, 0, 255⟩, .SolidColor ⟨0, 0, 0, 255⟩, 1, 1,
        ⟨"", 12⟩⟩, none, true, some ⟨0, 0, 1, 1⟩, ⟨0, 0, 1, 1⟩, 1⟩).clip = false ∧
    Ctx2D.restore ⟨⟨.SolidColor ⟨0, 0, 0, 255⟩, .SolidColor ⟨0, 0, 0, 255⟩, 1, 1,
        ⟨"", 12⟩⟩, none, true, some ⟨0, 0, 1, 1⟩, ⟨0, 0, 1, 1⟩, 1⟩
      ≠ ⟨⟨.SolidColor ⟨0, 0, 0, 255⟩, .SolidColor ⟨0, 0, 0, 255⟩, 1, 1,
        ⟨"", 12⟩⟩, none, true, some ⟨0, 0, 1, 1⟩, ⟨0, 0, 1, 1⟩, 1⟩ := by
  refine ⟨rfl, rfl, ?_⟩
  intro h
  have hclip := congrArg Ctx2D.clip h
  simp [Ctx2D.restore] at hclip

/-- C7 (amended): `restore()` with no prior `save()` never errors and leaves
the paint configuration (and the empty saved slot) unchanged, but it
unconditionally resets the clipping state: the clip flag and fast-path clip
rectangle are cleared and one clip level is popped. -/
theorem restore_c7_amended (s : Ctx2D) (h : s.savedConfig = none) :
    (s.restore).config = s.config ∧ (s.restore).savedConfig = none ∧
      (s.restore).clip = false ∧ (s.restore).clipRect = none ∧
      (s.restore).clipDepth = s.clipDepth - 1 := by
  simp [Ctx2D.restore, h]

/-- Witness for the amended C7 theorem at a concrete context state. -/
theorem restore_c7_amended_witness :
    ((⟨⟨.SolidColor ⟨1, 2, 3, 4⟩, .SolidColor ⟨5, 6, 7, 8⟩, 2, 1, ⟨"serif", 14⟩⟩,
        none, true, some ⟨0, 0, 2, 2⟩, ⟨0, 0, 2, 2⟩, 3⟩ : Ctx2D).restore).config
      = (⟨.SolidColor ⟨1, 2, 3, 4⟩, .SolidColor ⟨5, 6, 7, 8⟩, 2, 1, ⟨"serif", 14⟩⟩
        : RenderConfig) ∧
    ((⟨⟨.SolidColor ⟨1, 2, 3, 4⟩, .SolidColor ⟨5, 6, 7, 8⟩, 2, 1, ⟨"serif", 14⟩⟩,
        none, true, some ⟨0, 0, 2, 2⟩, ⟨0, 0, 2, 2⟩, 3⟩ : Ctx2D).restore).savedConfig
      = none ∧
    ((⟨⟨.SolidColor ⟨1, 2, 3, 4⟩, .SolidColor ⟨5, 6, 7, 8⟩, 2, 1, ⟨"serif", 14⟩⟩,
        none, true, some ⟨0, 0, 2, 2⟩, ⟨0, 0, 2, 2⟩, 3⟩ : Ctx2D).restore).clip = false ∧
    ((⟨⟨.SolidColor ⟨1, 2, 3, 4⟩, .SolidColor ⟨5, 6, 7, 8⟩, 2, 1, ⟨"serif", 14⟩⟩,
        none, true, some ⟨0, 0, 2, 2⟩, ⟨0, 0, 2, 2⟩, 3⟩ : Ctx2D).restore).clipRect
      = none ∧
    ((⟨⟨.SolidColor ⟨1, 2, 3, 4⟩, .SolidColor ⟨5, 6, 7, 8⟩, 2, 1, ⟨"serif", 14⟩⟩,
        none, true, some ⟨0, 0, 2, 2⟩, ⟨0, 0, 2, 2⟩, 3⟩ : Ctx2D).restore).clipDepth
      = 3 - 1 :=
  restore_c7_amended _ rfl

/-- C3: when the root's dirty-widget list is empty and the first-run flag is
unset, the layout system returns before the measure/arrange passes: the state
is unchanged, in particular every node's `bounds` (and cached desired size)
is untouched, whatever the layout pass would have done. -/
theorem run_with_context_c3_clean_noop (firstRun : Bool)
    (layoutPass : EcmState → EcmState) (s : EcmState)
    (hd : s.dirtyWidgets = []) (hf : firstRun = false) :
    run_with_context firstRun layoutPass s = s ∧
      (∀ e, (run_with_context firstRun layoutPass s).bounds e = s.bounds e) ∧
      (∀ e, (run_with_context firstRun layoutPass s).desiredSize e
        = s.desiredSize e) := by
  have : run_with_context firstRun layoutPass s = s := by
    simp [run_with_context, hd, hf]
  exact ⟨this, fun e => by rw [this], fun e => by rw [this]⟩

/-- Witness for the C3 theorem: a clean one-node state and a layout pass that
would visibly overwrite the bounds if it ran. -/
theorem run_with_context_c3_clean_noop_witness :
    run_with_context false
        (fun _ => ⟨[], fun _ => some ⟨5, 5, 5, 5⟩, fun _ => some (5, 5)⟩)
        ⟨[], fun _ => some ⟨0, 0, 10, 10⟩, fun _ => none⟩
      = ⟨[], fun _ => some ⟨0, 0, 10, 10⟩, fun _ => none⟩ ∧
    (∀ e, (run_with_context false
        (fun _ => ⟨[], fun _ => some ⟨5, 5, 5, 5⟩, fun _ => some (5, 5)⟩)
        ⟨[], fun _ => some ⟨0, 0, 10, 10⟩, fun _ => none⟩).bounds e
      = (⟨[], fun _ => some ⟨0, 0, 10, 10⟩, fun _ => none⟩ : EcmState).bounds e) ∧
    (∀ e, (run_with_context false
        (fun _ => ⟨[], fun _ => some ⟨5, 5, 5, 5⟩, fun _ => some (5, 5)⟩)
        ⟨[], fun _ => some ⟨0, 0, 10, 10⟩, fun _ => none⟩).desiredSize e
      = (⟨[], fun _ => some ⟨0, 0, 10, 10⟩, fun _ => none⟩ : EcmState).desiredSize e) :=
  run_with_context_c3_clean_noop false _ _ rfl rfl

/-- C1 (counterexample): the resolver emits explicit stop positions verbatim —
no clamping, no monotonicity floor — so the all-explicit input
`[Fixed 0.8, Fixed 0.3]` resolves to positions `[0.8, 0.3]`, which are not
non-decreasing. -/
theorem build_gradient_c1_counterexample :
    build_gradient [⟨.Fixed (4/5), ⟨255, 0, 0, 255⟩⟩, ⟨.Fixed (3/10), ⟨0, 0, 255, 255⟩⟩]
        = some [⟨F.fin (4/5), ⟨255, 255, 0, 0⟩⟩, ⟨F.fin (3/10), ⟨255, 0, 0, 255⟩⟩] ∧
      ¬ stopsMonotone
        [⟨F.fin (4/5), ⟨255, 255, 0, 0⟩⟩, ⟨F.fin (3/10), ⟨255, 0, 0, 255⟩⟩] := by
  constructor
  · simp [build_gradient, bgGo, dcolorOf]
  · intro h
    rcases h with _ | ⟨hle, -⟩
    rw [F.leb] at hle
    norm_num at hle

/-- Helper for the amended C1 theorem: scanning an all-`Interpolated` stop
list finds no `Fixed` anchor. -/
theorem findFixedFrom_interp (colors : List Color) :
    findFixedFrom (colors.map (fun c => ⟨.Interpolated, c⟩)) = none := by
  induction colors with
  | nil => rfl
  | cons c t ih => simp [findFixedFrom, ih]

/-- Helper: the position formula produced for the k-th all-`Auto` stop, as
exact rational division, once the interval count is nonzero. -/
theorem autoPosition_eq (c : ℚ) (hc : c ≠ 0) (k : ℕ) :
    F.fin 0 + (F.fin 1 - F.fin 0) / F.fin c * F.fin (k : ℚ) = F.fin ((k : ℚ) / c) := by
  simp only [fSubDef, fNegDef, fAddDef, fDivDef, fMulDef,
    F.sub, F.neg, F.add, F.div, F.mul, hc, if_false]
  norm_num
  rw [inv_mul_eq_div]

set_option maxHeartbeats 1000000 in
/-- C1 (amended): the claimed invariant holds for all-`Auto` inputs with at
least two stops: the resolver places the k-th of n stops at `k/(n-1)`, so the
positions are non-decreasing and lie in `[0, 1]` (`[Auto, Auto, Auto]`
resolves to `[0, 1/2, 1]`).  Explicit (`Fixed`) stops are emitted verbatim by
this resolver, so mixed or all-explicit stop lists can violate both
monotonicity and the range. -/
theorem build_gradient_c1_amended (colors : List Color) (h2 : 2 ≤ colors.length) :
    build_gradient (colors.map (fun c => ⟨.Interpolated, c⟩))
        = some ((List.range colors.length).map (fun (k : ℕ) =>
            (⟨F.fin ((k : ℚ) / ((colors.length : ℚ) - 1)),
              dcolorOf ((colors.get? k).getD ⟨0, 0, 0, 0⟩)⟩ : GStop)))
      ∧ stopsMonotone ((List.range colors.length).map (fun (k : ℕ) =>
            (⟨F.fin ((k : ℚ) / ((colors.length : ℚ) - 1)),
              dcolorOf ((colors.get? k).getD ⟨0, 0, 0, 0⟩)⟩ : GStop)))
      ∧ stopsInUnit ((List.range colors.length).map (fun (k : ℕ) =>
            (⟨F.fin ((k : ℚ) / ((colors.length : ℚ) - 1)),
              dcolorOf ((colors.get? k).getD ⟨0, 0, 0, 0⟩)⟩ : GStop))) := by
  have hc : ((colors.length : ℚ) - 1) ≠ 0 := by
    have h2q : (2 : ℚ) ≤ (colors.length : ℚ) := by exact_mod_cast h2
    nlinarith
  have hcpos : (0 : ℚ) < (colors.length : ℚ) - 1 := by
    have h2q : (2 : ℚ) ≤ (colors.length : ℚ) := by exact_mod_cast h2
    nlinarith
  refine ⟨?_, ?_, ?_⟩
  · have h0 : 0 < (colors.map (fun c => (⟨.Interpolated, c⟩ : GradientStop))).length := by
      simp
      omega
    have hk : ((colors.map (fun c => (⟨.Interpolated, c⟩ : GradientStop))).get
        ⟨0, h0⟩).kind = .Interpolated := by
      rcases colors with _ | ⟨c0, cs⟩
      · simp at h2
      · rfl
    unfold build_gradient
    rw [bgGo, dif_pos h0, hk]
    simp only [List.drop_zero, findFixedFrom_interp, List.length_map, Nat.sub_zero,
      Nat.zero_add, if_true, Option.some.injEq]
    apply List.map_congr_left
    intro k hk2
    rw [autoPosition_eq ((colors.length : ℚ) - 1) hc k]
    congr 1
    rw [List.get?_map]
    rcases colors.get? k with _ | c
    · rfl
    · rfl
  · rw [stopsMonotone, List.chain'_map]
    obtain ⟨m, hm⟩ : ∃ m, colors.length = m + 1 := ⟨colors.length - 1, by omega⟩
    rw [hm] at hcpos
    rw [hm, List.chain'_range_succ]
    intro i hi
    simp only [F.leb, decide_eq_true_eq]
    rw [div_le_div_iff_of_pos_right hcpos]
    exact_mod_cast Nat.le_succ i
  · intro s hs
    rcases List.mem_map.mp hs with ⟨k, hkmem, rfl⟩
    have hklt : k < colors.length := List.mem_range.mp hkmem
    constructor
    · simp only [F.leb, decide_eq_true_eq]
      positivity
    · simp only [F.leb, decide_eq_true_eq]
      rw [div_le_one hcpos]
      have : (k : ℚ) + 1 ≤ (colors.length : ℚ) := by exact_mod_cast hklt
      linarith

/-- Witness for the amended C1 theorem at the three-stop all-`Auto` input of
the spec's own example. -/
theorem build_gradient_c1_amended_witness :
    build_gradient (([⟨255, 0, 0, 255⟩, ⟨0, 255, 0, 255⟩, ⟨0, 0, 255, 255⟩] :
          List Color).map (fun c => ⟨.Interpolated, c⟩))
        = some ((List.range ([⟨255, 0, 0, 255⟩, ⟨0, 255, 0, 255⟩, ⟨0, 0, 255, 255⟩] :
            List Color).length).map (fun (k : ℕ) =>
            (⟨F.fin ((k : ℚ) / ((([⟨255, 0, 0, 255⟩, ⟨0, 255, 0, 255⟩, ⟨0, 0, 255, 255⟩] :
                List Color).length : ℚ) - 1)),
              dcolorOf ((([⟨255, 0, 0, 255⟩, ⟨0, 255, 0, 255⟩, ⟨0, 0, 255, 255⟩] :
                List Color).get? k).getD ⟨0, 0, 0, 0⟩)⟩ : GStop)))
      ∧ stopsMonotone ((List.range ([⟨255, 0, 0, 255⟩, ⟨0, 255, 0, 255⟩,
            ⟨0, 0, 255, 255⟩] : List Color).length).map (fun (k : ℕ) =>
            (⟨F.fin ((k : ℚ) / ((([⟨255, 0, 0, 255⟩, ⟨0, 255, 0, 255⟩, ⟨0, 0, 255, 255⟩] :
                List Color).length : ℚ) - 1)),
              dcolorOf ((([⟨255, 0, 0, 255⟩, ⟨0, 255, 0, 255⟩, ⟨0, 0, 255, 255⟩] :
                List Color).get? k).getD ⟨0, 0, 0, 0⟩)⟩ : GStop)))
      ∧ stopsInUnit ((List.range ([⟨255, 0, 0, 255⟩, ⟨0, 255, 0, 255⟩,
            ⟨0, 0, 255, 255⟩] : List Color).length).map (fun (k : ℕ) =>
            (⟨F.fin ((k : ℚ) / ((([⟨255, 0, 0, 255⟩, ⟨0, 255, 0, 255⟩, ⟨0, 0, 255, 255⟩] :
                List Color).length : ℚ) - 1)),
              dcolorOf ((([⟨255, 0, 0, 255⟩, ⟨0, 255, 0, 255⟩, ⟨0, 0, 255, 255⟩] :
                List Color).get? k).getD ⟨0, 0, 0, 0⟩)⟩ : GStop))) :=
  build_gradient_c1_amended _ (by norm_num)

/-- Helper: the resolved stops of the two-stop `Fixed 0 / Fixed 1` ramp used
by the C4 evaluations. -/
theorem bgC4pair : build_gradient [⟨.Fixed 0, ⟨255, 0, 0, 255⟩⟩, ⟨.Fixed 1, ⟨0, 0, 255, 255⟩⟩]
    = some [⟨F.fin 0, ⟨255, 255, 0, 0⟩⟩, ⟨F.fin 1, ⟨255, 0, 0, 255⟩⟩] := by
  simp [build_gradient, bgGo, dcolorOf]

set_option maxHeartbeats 1000000 in
/-- Helper: device geometry of the `Angle 0` linear gradient on the square
frame `(0,0,100,100)`: start bottom-mid, end top-mid. -/
theorem brushC4angleZero : brush_to_source quarterTrig
    (.Gradient .Linear ⟨.Angle 0,
      [⟨.Fixed 0, ⟨255, 0, 0, 255⟩⟩, ⟨.Fixed 1, ⟨0, 0, 255, 255⟩⟩]⟩)
    ⟨0, 0, 100, 100⟩
    = some (.LinearGradient
      [⟨F.fin 0, ⟨255, 255, 0, 0⟩⟩, ⟨F.fin 1, ⟨255, 0, 0, 255⟩⟩]
      ⟨50, 100⟩ ⟨50, 0⟩ .Pad) := by
  have hrad0 : angleRad 0 = 3/2 := by norm_num [angleRad, rustMod, ratTrunc]
  have hz0 : angleZ quarterTrig (3/2) 100 100 (1/4) = ⟨0, -50⟩ := by
    norm_num [angleZ, quarterTrig, normTwoPi, ptqNegDef, PtQ.neg]
  rw [brush_to_source, bgC4pair]
  have hatan : quarterTrig.atan ((100 : ℚ) / 100) = 1/4 := by norm_num [quarterTrig]
  simp only [hrad0, hatan, hz0]
  norm_num [RectQ.position, RectQ.halfSize, ptqAddDef, ptqNegDef, PtQ.add, PtQ.neg]

set_option maxHeartbeats 1000000 in
/-- Helper: device geometry of the `Angle π` linear gradient on the square
frame `(0,0,100,100)`: also start bottom-mid, end top-mid. -/
theorem brushC4anglePi : brush_to_source quarterTrig
    (.Gradient .Linear ⟨.Angle 1,
      [⟨.Fixed 0, ⟨255, 0, 0, 255⟩⟩, ⟨.Fixed 1, ⟨0, 0, 255, 255⟩⟩]⟩)
    ⟨0, 0, 100, 100⟩
    = some (.LinearGradient
      [⟨F.fin 0, ⟨255, 255, 0, 0⟩⟩, ⟨F.fin 1, ⟨255, 0, 0, 255⟩⟩]
      ⟨50, 100⟩ ⟨50, 0⟩ .Pad) := by
  have hrad1 : angleRad 1 = 1/2 := by norm_num [angleRad, rustMod, ratTrunc]
  have hz1 : angleZ quarterTrig (1/2) 100 100 (1/4) = ⟨0, -50⟩ := by
    norm_num [angleZ, quarterTrig, normTwoPi, ptqNegDef, PtQ.neg]
  rw [brush_to_source, bgC4pair]
  have hatan : quarterTrig.atan ((100 : ℚ) / 100) = 1/4 := by norm_num [quarterTrig]
  simp only [hrad1, hatan, hz1]
  norm_num [RectQ.position, RectQ.halfSize, ptqAddDef, ptqNegDef, PtQ.add, PtQ.neg]


set_option maxHeartbeats 1000000 in
/-- C4 (counterexample): on the square frame `(0,0,100,100)` the angle
gradients 0 and π produce IDENTICAL device endpoints — both start at the
bottom middle `(50,100)` and end at the top middle `(50,0)` — not swapped
ones, because the sign-flip condition of the non-tall branch
(`rad >= PI + c || rad <= PI*2 - c`) holds for every angle of that branch. -/
theorem brush_to_source_c4_counterexample :
    brush_to_source quarterTrig
        (.Gradient .Linear ⟨.Angle 0,
          [⟨.Fixed 0, ⟨255, 0, 0, 255⟩⟩, ⟨.Fixed 1, ⟨0, 0, 255, 255⟩⟩]⟩)
        ⟨0, 0, 100, 100⟩
      = some (.LinearGradient
          [⟨F.fin 0, ⟨255, 255, 0, 0⟩⟩, ⟨F.fin 1, ⟨255, 0, 0, 255⟩⟩]
          ⟨50, 100⟩ ⟨50, 0⟩ .Pad) ∧
    brush_to_source quarterTrig
        (.Gradient .Linear ⟨.Angle 1,
          [⟨.Fixed 0, ⟨255, 0, 0, 255⟩⟩, ⟨.Fixed 1, ⟨0, 0, 255, 255⟩⟩]⟩)
        ⟨0, 0, 100, 100⟩
      = some (.LinearGradient
          [⟨F.fin 0, ⟨255, 255, 0, 0⟩⟩, ⟨F.fin 1, ⟨255, 0, 0, 255⟩⟩]
          ⟨50, 100⟩ ⟨50, 0⟩ .Pad) ∧
    ¬ ((brush_to_source quarterTrig
          (.Gradient .Linear ⟨.Angle 0,
            [⟨.Fixed 0, ⟨255, 0, 0, 255⟩⟩, ⟨.Fixed 1, ⟨0, 0, 255, 255⟩⟩]⟩)
          ⟨0, 0, 100, 100⟩).bind Source.startPt
        = (brush_to_source quarterTrig
          (.Gradient .Linear ⟨.Angle 1,
            [⟨.Fixed 0, ⟨255, 0, 0, 255⟩⟩, ⟨.Fixed 1, ⟨0, 0, 255, 255⟩⟩]⟩)
          ⟨0, 0, 100, 100⟩).bind Source.endPt ∧
        (brush_to_source quarterTrig
          (.Gradient .Linear ⟨.Angle 0,
            [⟨.Fixed 0, ⟨255, 0, 0, 255⟩⟩, ⟨.Fixed 1, ⟨0, 0, 255, 255⟩⟩]⟩)
          ⟨0, 0, 100, 100⟩).bind Source.endPt
        = (brush_to_source quarterTrig
          (.Gradient .Linear ⟨.Angle 1,
            [⟨.Fixed 0, ⟨255, 0, 0, 255⟩⟩, ⟨.Fixed 1, ⟨0, 0, 255, 255⟩⟩]⟩)
          ⟨0, 0, 100, 100⟩).bind Source.startPt) := by
  refine ⟨brushC4angleZero, brushC4anglePi, ?_⟩
  rw [brushC4angleZero, brushC4anglePi]
  intro hsw
  rcases hsw with ⟨hs, -⟩
  simp [Source.startPt, Source.endPt] at hs

set_option maxHeartbeats 1000000 in
/-- C4 (amended): on the square frame `(0,0,100,100)`, resolving the linear
gradients `Angle 0` and `Angle π` produces the SAME device geometry — both
start at the bottom middle `(50,100)` and end at the top middle `(50,0)` —
because the sign-flip condition in the non-tall branch of the angle code is
satisfied by every angle that reaches that branch. -/
theorem brush_to_source_c4_amended :
    brush_to_source quarterTrig
        (.Gradient .Linear ⟨.Angle 0,
          [⟨.Fixed 0, ⟨255, 0, 0, 255⟩⟩, ⟨.Fixed 1, ⟨0, 0, 255, 255⟩⟩]⟩)
        ⟨0, 0, 100, 100⟩
      = brush_to_source quarterTrig
        (.Gradient .Linear ⟨.Angle 1,
          [⟨.Fixed 0, ⟨255, 0, 0, 255⟩⟩, ⟨.Fixed 1, ⟨0, 0, 255, 255⟩⟩]⟩)
        ⟨0, 0, 100, 100⟩ ∧
    (brush_to_source quarterTrig
        (.Gradient .Linear ⟨.Angle 0,
          [⟨.Fixed 0, ⟨255, 0, 0, 255⟩⟩, ⟨.Fixed 1, ⟨0, 0, 255, 255⟩⟩]⟩)
        ⟨0, 0, 100, 100⟩).bind Source.startPt = some ⟨50, 100⟩ ∧
    (brush_to_source quarterTrig
        (.Gradient .Linear ⟨.Angle 0,
          [⟨.Fixed 0, ⟨255, 0, 0, 255⟩⟩, ⟨.Fixed 1, ⟨0, 0, 255, 255⟩⟩]⟩)
        ⟨0, 0, 100, 100⟩).bind Source.endPt = some ⟨50, 0⟩ := by
  rw [brushC4angleZero, brushC4anglePi]
  refine ⟨rfl, rfl, rfl⟩


/-- Helper: `build_gradient` on a single `Fixed` stop emits exactly that stop. -/
theorem bgSingleFixed (pos : ℚ) (c : Color) :
    build_gradient [⟨.Fixed pos, c⟩] = some [⟨F.fin pos, dcolorOf c⟩] := by
  simp [build_gradient, bgGo]

/-- C8 (counterexample): `brush_to_source` does not special-case single-stop
gradients: a linear gradient holding exactly one color stop resolves to a
one-stop gradient source, not to a solid-color brush. -/
theorem brush_to_source_c8_counterexample :
    brush_to_source quarterTrig
        (.Gradient .Linear ⟨.Ends ⟨0, 0⟩ ⟨1, 0⟩, [⟨.Fixed (1/2), ⟨255, 0, 0, 255⟩⟩]⟩)
        ⟨0, 0, 10, 10⟩
      = some (.LinearGradient [⟨F.fin (1/2), ⟨255, 255, 0, 0⟩⟩] ⟨0, 0⟩ ⟨1, 0⟩ .Repeat) ∧
    brush_to_source quarterTrig
        (.Gradient .Linear ⟨.Ends ⟨0, 0⟩ ⟨1, 0⟩, [⟨.Fixed (1/2), ⟨255, 0, 0, 255⟩⟩]⟩)
        ⟨0, 0, 10, 10⟩
      ≠ some (.Solid ⟨255, 255, 0, 0⟩) := by
  have h : brush_to_source quarterTrig
      (.Gradient .Linear ⟨.Ends ⟨0, 0⟩ ⟨1, 0⟩, [⟨.Fixed (1/2), ⟨255, 0, 0, 255⟩⟩]⟩)
      ⟨0, 0, 10, 10⟩
      = some (.LinearGradient [⟨F.fin (1/2), ⟨255, 255, 0, 0⟩⟩] ⟨0, 0⟩ ⟨1, 0⟩ .Repeat) := by
    rw [brush_to_source, bgSingleFixed]
    norm_num [RectQ.position, ptqAddDef, PtQ.add, dcolorOf]
  refine ⟨h, ?_⟩
  rw [h]
  intro hbad
  simp at hbad

/-- C8 (amended): for every trig oracle, coordinate form, frame, and
single-stop list, `brush_to_source` never returns a solid source for a
gradient brush; for explicit `Ends` coordinates it returns the one-stop
linear-gradient source carrying the stop's position and color and the
frame-offset endpoints (the solid degradation for single-stop gradients lives
upstream, in the expression parser, not in this conversion). -/
theorem brush_to_source_c8_amended (T : Trig) (coords : GradientCoords)
    (frame : RectQ) (pos : ℚ) (c : Color) (d : DColor) (s e : PtQ) :
    brush_to_source T (.Gradient .Linear ⟨coords, [⟨.Fixed pos, c⟩]⟩) frame
        ≠ some (.Solid d) ∧
      brush_to_source T (.Gradient .Linear ⟨.Ends s e, [⟨.Fixed pos, c⟩]⟩) frame
        = some (.LinearGradient [⟨F.fin pos, dcolorOf c⟩]
            (frame.position + s) (frame.position + e) .Repeat) := by
  constructor
  · cases coords <;> rw [brush_to_source, bgSingleFixed] <;> simp
  · rw [brush_to_source, bgSingleFixed]

/-- C6 (counterexample): the bounds tracker of the raqote context never
returns "no bounds": `path_rect` unconditionally produces a rectangle, and for
a path with no recorded command that rectangle is the degenerate `(0,0,0,0)` —
its `Option`-valued reading is `some`, not `none`, on the empty path. -/
theorem path_rect_c6_counterexample :
    path_rect_opt [] = some ⟨F.fin 0, F.fin 0, F.fin 0, F.fin 0⟩ ∧
      path_rect_opt [] ≠ none := by
  constructor
  · rfl
  · intro h
    simp [path_rect_opt] at h

/-- C6 (amended): a rectangle is produced for every command list: the empty
path yields the zero rectangle `(0,0,0,0)` rather than an absent result, and
the first recorded command seeds the rectangle (a single `MoveTo (3,4)` gives
`(3,4,0,0)`). -/
theorem path_rect_c6_amended :
    (∀ ops : List PathOp, path_rect_opt ops = some (path_rect ops)) ∧
      path_rect [] = ⟨F.fin 0, F.fin 0, F.fin 0, F.fin 0⟩ ∧
      path_rect [.MoveTo (PtF.ofq 3 4)] = ⟨F.fin 3, F.fin 4, F.fin 0, F.fin 0⟩ := by
  refine ⟨fun ops => rfl, rfl, ?_⟩
  norm_num [path_rect, opSpan, mergeSpan, PtF.ofq, List.range_succ,
    fSubDef, fNegDef, fAddDef, F.sub, F.neg, F.add]

set_option maxHeartbeats 1000000 in
/-- C5 (counterexample): for the arc with center `(0,0)`, radius 1, start
angle `-π/2` and end angle `0`, the 90° cardinal lies within the sweep after
normalizing both bounds into `[0, 2π)` (they become `3π/2` and `0`), yet the
computed box is `(0, -1, 1, 1)` — it does not contain the 90° extremum
`(0, 1)`, because the code compares the cardinals against the RAW
`[min(start, end), max(start, end)]` without any normalization. -/
theorem arc_rect_c5_counterexample :
    arc_rect quarterTrig 0 0 1 (-(1/2)) 0 = ⟨0, -1, 1, 1⟩ ∧
      (min (normTwoPi (-(1/2))) (normTwoPi 0) ≤ ((1 : ℕ) : ℚ) / 2 ∧
        ((1 : ℕ) : ℚ) / 2 ≤ max (normTwoPi (-(1/2))) (normTwoPi 0)) ∧
      ¬ (arc_rect quarterTrig 0 0 1 (-(1/2)) 0).holds
          (0 + (cardinalPt 1).1 * 1) (0 + (cardinalPt 1).2 * 1) := by
  have hrect : arc_rect quarterTrig 0 0 1 (-(1/2)) 0 = ⟨0, -1, 1, 1⟩ := by
    have hsa : quarterTrig.sin (-(1/2)) = -1 := by norm_num [quarterTrig, normTwoPi]
    have hca : quarterTrig.cos (-(1/2)) = 0 := by norm_num [quarterTrig, normTwoPi]
    have hsb : quarterTrig.sin 0 = 0 := by norm_num [quarterTrig, normTwoPi]
    have hcb : quarterTrig.cos 0 = 1 := by norm_num [quarterTrig, normTwoPi]
    rw [arc_rect, hsa, hca, hsb, hcb]
    have hq0 : arcQualB (-(1/2)) 0 0 = true := by
      norm_num [arcQualB]
    have hq1 : arcQualB (-(1/2)) 0 1 = false := by
      norm_num [arcQualB]
    have hq2 : arcQualB (-(1/2)) 0 2 = false := by
      norm_num [arcQualB]
    have hq3 : arcQualB (-(1/2)) 0 3 = false := by
      norm_num [arcQualB]
    simp only [List.foldl, arcStep, hq0, hq1, hq2, hq3, if_true, if_false,
      Bool.false_eq_true, cardinalPt]
    norm_num
  refine ⟨hrect, ⟨?_, ?_⟩, ?_⟩
  · norm_num [normTwoPi]
  · norm_num [normTwoPi]
  · rw [hrect]
    intro hbad
    rcases hbad with ⟨-, -, -, hy⟩
    norm_num [cardinalPt] at hy

set_option maxHeartbeats 4000000 in
/-- C5 (amended): the box computed by `arc_rect` is exactly the min/max box of
the two endpoint unit vectors together with precisely those cardinal unit
vectors whose angle lies in the RAW interval `[min(start,end), max(start,end)]`
(no normalization into `[0, 2π)` is applied), offset by the center and scaled
by the radius.  In particular, when no cardinal qualifies the bounds come only
from the arc's two endpoints. -/
theorem arc_rect_c5_amended (T : Trig) (x y radius sa ea : ℚ) :
    arc_rect T x y radius sa ea =
      ⟨x + lminQ ((arcPts T sa ea).map Prod.fst) * radius,
       y + lminQ ((arcPts T sa ea).map Prod.snd) * radius,
       (x + lmaxQ ((arcPts T sa ea).map Prod.fst) * radius)
         - (x + lminQ ((arcPts T sa ea).map Prod.fst) * radius),
       (y + lmaxQ ((arcPts T sa ea).map Prod.snd) * radius)
         - (y + lminQ ((arcPts T sa ea).map Prod.snd) * radius)⟩ := by
  by_cases h0 : arcQualB sa ea 0 <;> by_cases h1 : arcQualB sa ea 1 <;>
    by_cases h2 : arcQualB sa ea 2 <;> by_cases h3 : arcQualB sa ea 3 <;>
    simp only [arc_rect, arcPts, lminQ, lmaxQ, List.foldl, arcStep, h0, h1, h2, h3,
      if_true, if_false, Bool.false_eq_true, List.filter, List.map, cardinalPt]
